import Mathlib

/-!
Verification of the blogstore repository (dracory/blogstore).

The development shallowly embeds the parts of the Go code that the checked
properties are about:

* the column-name constants and the `Post` entity (a `dataobject.DataObject`:
  a string field map with dirty-field tracking);
* the query builder `postQuery` (file `store_implementation.go`), modelled as a
  function from `PostQueryOptions` to an abstract SQL `Query` value mirroring
  the goqu `SelectDataset` state that the code constructs (where-predicates,
  limit, offset, order, count projection);
* the store operations `PostCreate`, `PostUpdate`, `PostCount`, `PostList`,
  `PostFindByID`, `PostSoftDelete`, `PostSoftDeleteByID`, with the database,
  the statement renderer and the clock supplied as an explicit environment;
* the versioning engine (`versioningCreateIfChanged`, `versioningTrackEntity`,
  `versioningContentFromEntity`, `VersioningCreate`, `VersioningList`), with
  the backing snapshot store modelled as an in-memory list of snapshots
  carrying strictly increasing creation stamps.

Machine integers do not overflow on any modelled path, so Go `int`/`int64`
are modelled as `Int`; Go strings are Lean `String`.
-/

namespace Blogstore

/-! ### Column-name constants

The constants file of the repository is not under `src/` (only its users are).
Modelled from the spec: the post table columns given in §3 and §6 of the spec
and in the create-table DDL / tool schema (`id`, `status`, `title`, `content`,
..., `soft_deleted_at`), and the versioning entity-type tag for posts, which
is non-blank (snapshots for posts are successfully created in the tests, and
`versioningCreateIfChanged` rejects a blank entity type). -/

def COLUMN_ID : String := "id"

def COLUMN_STATUS : String := "status"

def COLUMN_TITLE : String := "title"

def COLUMN_CONTENT : String := "content"

def COLUMN_SUMMARY : String := "summary"

def COLUMN_CREATED_AT : String := "created_at"

def COLUMN_UPDATED_AT : String := "updated_at"

def COLUMN_SOFT_DELETED_AT : String := "soft_deleted_at"

def VERSIONING_TYPE_POST : String := "post"

/-! ### Query options (file `PostQueryOptions.go`) -/

/-- Struct `PostQueryOptions` from `PostQueryOptions.go`; Go zero values are the
defaults.  The `Search` field is read by the current `postQuery` but the
options file under `src/` predates it; it is the free-text search term of
spec §3/§4.1. -/
structure PostQueryOptions where
  ID : String := ""
  IDIn : List String := []
  Status : String := ""
  StatusIn : List String := []
  Search : String := ""
  CreatedAtLessThan : String := ""
  CreatedAtGreaterThan : String := ""
  Offset : Int := 0
  Limit : Int := 0
  SortOrder : String := ""
  OrderBy : String := ""
  CountOnly : Bool := false
  WithDeleted : Bool := false
deriving Repr, DecidableEq

/-! ### Abstract SQL statements (the goqu `SelectDataset` state) -/

/-- An atomic SQL predicate as built by the goqu expression constructors the
code uses (`Eq`, `In`, `ILike`, `Gt`, `Lt`). -/
inductive Atom where
  | eqP (col : String) (val : String)
  | inP (col : String) (vals : List String)
  | ilikeP (col : String) (pattern : String)
  | gtP (col : String) (val : String)
  | ltP (col : String) (val : String)
deriving Repr, DecidableEq

/-- A SQL predicate: either atomic or a `goqu.Or` of atomic predicates
(the code only ever ORs atomic predicates). -/
inductive Pred where
  | atom (a : Atom)
  | orP (disjuncts : List Atom)
deriving Repr, DecidableEq

/-- The part of the goqu `SelectDataset` state that the code constructs:
`Where` collects predicates that are ANDed; `Limit`, `Offset` and `Order`
are optional clauses; `Select(COUNT(*))` sets a count projection. -/
structure Query where
  whereList : List Pred := []
  limit : Option Nat := none
  offset : Option Nat := none
  order : Option (String × Bool) := none
  countProjection : Bool := false
deriving Repr, DecidableEq

namespace Query

/-- Model of `goqu.From(table)`: the initial dataset (the table name plays no role in
any checked property). -/
def init : Query := {}

/-- Model of `q.Where(p)`: appends one predicate; predicates accumulate and are ANDed. -/
def whereP (q : Query) (p : Pred) : Query :=
  { q with whereList := q.whereList ++ [p] }

/-- Model of `q.Limit(n)`. -/
def withLimit (q : Query) (n : Nat) : Query := { q with limit := some n }

/-- Model of `q.Offset(n)`. -/
def withOffset (q : Query) (n : Nat) : Query := { q with offset := some n }

/-- Model of `q.Order(col.Asc()/.Desc())`: the Bool is `true` for ascending. -/
def withOrder (q : Query) (col : String) (asc : Bool) : Query :=
  { q with order := some (col, asc) }

/-- Model of `q.Select(goqu.COUNT(goqu.Star()).As("count"))`. -/
def selectCount (q : Query) : Query := { q with countProjection := true }

end Query

/-- Conditionally add a predicate: the `if cond { q = q.Where(p) }` pattern
of `postQuery`. -/
def addIf (c : Prop) [Decidable c] (p : Pred) (q : Query) : Query :=
  if c then q.whereP p else q

/-! ### The query builder `postQuery` (file `store_implementation.go`)

`postQuery` is written below in three stages that follow the statement order
of the Go function exactly: the where-chain (`qBase`), the pagination/order
block guarded by `!options.CountOnly` (`qPaged`), and the final soft-delete
visibility predicate guarded by `options.WithDeleted`. -/

/-- The compound search predicate built for a non-empty `options.Search`. -/
def searchPred (s : String) : Pred :=
  .orP [.ilikeP COLUMN_TITLE ("%" ++ s ++ "%"),
        .ilikeP COLUMN_CONTENT ("%" ++ s ++ "%"),
        .eqP COLUMN_ID s]

/-- The soft-delete visibility predicate: soft-deleted-at strictly greater
than the current instant (`carbon.Now(carbon.UTC).ToDateTimeString()`). -/
def softDeletedPred (now : String) : Pred :=
  .atom (.gtP COLUMN_SOFT_DELETED_AT now)

/-- The first four conditional predicates of `postQuery`'s where-chain, in
source order: exact id, id-in, exact status, status-in. -/
def qPre (o : PostQueryOptions) : Query :=
  addIf (o.StatusIn.length > 0) (.atom (.inP COLUMN_STATUS o.StatusIn)) <|
  addIf (o.Status ≠ "") (.atom (.eqP COLUMN_STATUS o.Status)) <|
  addIf (o.IDIn.length > 0) (.atom (.inP COLUMN_ID o.IDIn)) <|
  addIf (o.ID ≠ "") (.atom (.eqP COLUMN_ID o.ID)) <|
  Query.init

/-- The full where-chain of `postQuery`, in source order.  Note the `StatusIn`
predicate is added twice when present, exactly as in the source (lines 348
and 373 of `store_implementation.go`). -/
def qBase (o : PostQueryOptions) : Query :=
  addIf (o.StatusIn.length > 0) (.atom (.inP COLUMN_STATUS o.StatusIn)) <|
  addIf (o.CreatedAtLessThan ≠ "") (.atom (.ltP COLUMN_CREATED_AT o.CreatedAtLessThan)) <|
  addIf (o.CreatedAtGreaterThan ≠ "") (.atom (.gtP COLUMN_CREATED_AT o.CreatedAtGreaterThan)) <|
  addIf (o.Search ≠ "") (searchPred o.Search) <|
  qPre o

/-- Model of `strings.EqualFold` on the modelled inputs (ASCII case folding). -/
def eqFold (a b : String) : Bool := a.toLower == b.toLower

/-- Constant `sb.ASC`. -/
def SB_ASC : String := "asc"

/-- The `if !options.CountOnly { ... }` pagination/order block of
`postQuery`. -/
def qPaged (o : PostQueryOptions) : Query :=
  if ¬ o.CountOnly then
    let q := qBase o
    let q := if o.Limit > 0 then q.withLimit o.Limit.toNat else q
    let q := if o.Offset > 0 then q.withOffset o.Offset.toNat else q
    let sortOrder := if o.SortOrder ≠ "" then o.SortOrder else "desc"
    if o.OrderBy ≠ "" then
      if eqFold sortOrder SB_ASC then q.withOrder o.OrderBy true
      else q.withOrder o.OrderBy false
    else q
  else qBase o

/-- Function `postQuery` from `store_implementation.go`: the full built query, with
the current instant (`carbon.Now(carbon.UTC).ToDateTimeString()`) passed
explicitly. -/
def postQuery (o : PostQueryOptions) (now : String) : Query :=
  if o.WithDeleted then qPaged o
  else (qPaged o).whereP (softDeletedPred now)

/-- The statement built by `PostCount` (file `store_implementation.go`):
`postQuery` on the options with `CountOnly` forced, then
`.Limit(1).Select(goqu.COUNT(goqu.Star()))`. -/
def postCountQuery (o : PostQueryOptions) (now : String) : Query :=
  ((postQuery { o with CountOnly := true } now).withLimit 1).selectCount

/-! ### Row-level meaning of the built statements

A database row is a string field map (the repository reads rows back as
`map[string]string`).  The predicate semantics below is standard SQL:
string comparison is lexicographic, `ILIKE` is case-insensitive `LIKE`
matching with `%` wildcards. -/

/-- A database row: a string-valued field map; absent columns read as `""`
(the Go `map[string]string` zero value). -/
def Row := List (String × String)

/-- Field lookup in a row. -/
def rowGet (r : Row) (k : String) : String :=
  match r.find? (fun kv => kv.fst == k) with
  | some kv => kv.snd
  | none => ""

/-- SQL `LIKE` matching over character lists; the repository's patterns only
use the `%` wildcard. -/
def likeChars (p s : List Char) : Bool :=
  match p, s with
  | [], s => s.isEmpty
  | '%' :: ps, [] => likeChars ps []
  | '%' :: ps, d :: cs => likeChars ps (d :: cs) || likeChars ('%' :: ps) cs
  | _ :: _, [] => false
  | c :: ps, d :: cs => c == d && likeChars ps cs
termination_by (s.length, p.length)

/-- SQL `ILIKE`: case-insensitive `LIKE`. -/
def sqlIlike (val pattern : String) : Bool :=
  likeChars pattern.toLower.toList val.toLower.toList

/-- Evaluation of an atomic predicate on a row. -/
def evalAtom (r : Row) : Atom → Bool
  | .eqP col v => rowGet r col == v
  | .inP col vs => vs.contains (rowGet r col)
  | .ilikeP col pat => sqlIlike (rowGet r col) pat
  | .gtP col v => decide (v < rowGet r col)
  | .ltP col v => decide (rowGet r col < v)

/-- Evaluation of a predicate on a row. -/
def evalPred (r : Row) : Pred → Bool
  | .atom a => evalAtom r a
  | .orP ds => ds.any (evalAtom r)

/-- A row satisfies a built query iff it satisfies all its (ANDed)
where-predicates. -/
def rowSat (q : Query) (r : Row) : Bool :=
  q.whereList.all (evalPred r)

/-- Whether a predicate mentions a column. -/
def atomUsesCol (col : String) : Atom → Bool
  | .eqP c _ => c == col
  | .inP c _ => c == col
  | .ilikeP c _ => c == col
  | .gtP c _ => c == col
  | .ltP c _ => c == col

/-- Whether a predicate mentions a column. -/
def predUsesCol (col : String) : Pred → Bool
  | .atom a => atomUsesCol col a
  | .orP ds => ds.any (atomUsesCol col)

/-- Whether a predicate is a compound (`goqu.Or`) predicate. -/
def Pred.isOr : Pred → Bool
  | .orP _ => true
  | _ => false

/-! ### Simp lemmas about the query-builder state -/

@[simp] theorem addIf_whereList (c : Prop) [Decidable c] (p : Pred) (q : Query) :
    (addIf c p q).whereList = q.whereList ++ (if c then [p] else []) := by
  unfold addIf Query.whereP
  split <;> simp

@[simp] theorem addIf_limit (c : Prop) [Decidable c] (p : Pred) (q : Query) :
    (addIf c p q).limit = q.limit := by
  unfold addIf Query.whereP; split <;> rfl

@[simp] theorem addIf_offset (c : Prop) [Decidable c] (p : Pred) (q : Query) :
    (addIf c p q).offset = q.offset := by
  unfold addIf Query.whereP; split <;> rfl

@[simp] theorem addIf_order (c : Prop) [Decidable c] (p : Pred) (q : Query) :
    (addIf c p q).order = q.order := by
  unfold addIf Query.whereP; split <;> rfl

@[simp] theorem whereP_whereList (q : Query) (p : Pred) :
    (q.whereP p).whereList = q.whereList ++ [p] := rfl

@[simp] theorem withLimit_whereList (q : Query) (n : Nat) :
    (q.withLimit n).whereList = q.whereList := rfl

@[simp] theorem withOffset_whereList (q : Query) (n : Nat) :
    (q.withOffset n).whereList = q.whereList := rfl

@[simp] theorem withOrder_whereList (q : Query) (col : String) (b : Bool) :
    (q.withOrder col b).whereList = q.whereList := rfl

@[simp] theorem init_whereList : Query.init.whereList = [] := rfl

@[simp] theorem ite_whereList (c : Prop) [Decidable c] (a b : Query) :
    (if c then a else b).whereList = if c then a.whereList else b.whereList := by
  split <;> rfl

@[simp] theorem ite_limit (c : Prop) [Decidable c] (a b : Query) :
    (if c then a else b).limit = if c then a.limit else b.limit := by
  split <;> rfl

@[simp] theorem ite_offset (c : Prop) [Decidable c] (a b : Query) :
    (if c then a else b).offset = if c then a.offset else b.offset := by
  split <;> rfl

@[simp] theorem ite_order (c : Prop) [Decidable c] (a b : Query) :
    (if c then a else b).order = if c then a.order else b.order := by
  split <;> rfl

theorem qBase_limit (o : PostQueryOptions) : (qBase o).limit = none := by
  simp [qBase, qPre]; rfl

theorem qBase_offset (o : PostQueryOptions) : (qBase o).offset = none := by
  simp [qBase, qPre]; rfl

theorem qBase_order (o : PostQueryOptions) : (qBase o).order = none := by
  simp [qBase, qPre]; rfl

/-- The pagination/order block does not change the where-predicates. -/
theorem qPaged_whereList (o : PostQueryOptions) :
    (qPaged o).whereList = (qBase o).whereList := by
  unfold qPaged
  split_ifs <;> simp

@[simp] theorem whereP_limit (q : Query) (p : Pred) : (q.whereP p).limit = q.limit := rfl

@[simp] theorem whereP_offset (q : Query) (p : Pred) : (q.whereP p).offset = q.offset := rfl

@[simp] theorem whereP_order (q : Query) (p : Pred) : (q.whereP p).order = q.order := rfl

@[simp] theorem withLimit_limit (q : Query) (n : Nat) : (q.withLimit n).limit = some n := rfl

@[simp] theorem withLimit_offset (q : Query) (n : Nat) : (q.withLimit n).offset = q.offset := rfl

@[simp] theorem withLimit_order (q : Query) (n : Nat) : (q.withLimit n).order = q.order := rfl

@[simp] theorem withOffset_offset (q : Query) (n : Nat) : (q.withOffset n).offset = some n := rfl

@[simp] theorem withOffset_limit (q : Query) (n : Nat) : (q.withOffset n).limit = q.limit := rfl

@[simp] theorem withOffset_order (q : Query) (n : Nat) : (q.withOffset n).order = q.order := rfl

@[simp] theorem withOrder_order (q : Query) (col : String) (b : Bool) :
    (q.withOrder col b).order = some (col, b) := rfl

@[simp] theorem withOrder_limit (q : Query) (col : String) (b : Bool) :
    (q.withOrder col b).limit = q.limit := rfl

@[simp] theorem withOrder_offset (q : Query) (col : String) (b : Bool) :
    (q.withOrder col b).offset = q.offset := rfl

@[simp] theorem selectCount_limit (q : Query) : q.selectCount.limit = q.limit := rfl

@[simp] theorem selectCount_offset (q : Query) : q.selectCount.offset = q.offset := rfl

@[simp] theorem selectCount_order (q : Query) : q.selectCount.order = q.order := rfl

@[simp] theorem selectCount_countProjection (q : Query) :
    q.selectCount.countProjection = true := rfl

@[simp] theorem init_limit : Query.init.limit = none := rfl

@[simp] theorem init_offset : Query.init.offset = none := rfl

@[simp] theorem init_order : Query.init.order = none := rfl

theorem qPaged_limit (o : PostQueryOptions) :
    (qPaged o).limit
      = if o.CountOnly then none
        else if o.Limit > 0 then some o.Limit.toNat else none := by
  unfold qPaged
  split_ifs <;> simp_all [qBase_limit]

theorem qPaged_offset (o : PostQueryOptions) :
    (qPaged o).offset
      = if o.CountOnly then none
        else if o.Offset > 0 then some o.Offset.toNat else none := by
  unfold qPaged
  split_ifs <;> simp_all [qBase_offset]

theorem qPaged_order_of_countOnly (o : PostQueryOptions) (h : o.CountOnly = true) :
    (qPaged o).order = none := by
  unfold qPaged
  simp [h, qBase_order]

theorem postQuery_limit (o : PostQueryOptions) (now : String) :
    (postQuery o now).limit = (qPaged o).limit := by
  unfold postQuery; split <;> simp

theorem postQuery_offset (o : PostQueryOptions) (now : String) :
    (postQuery o now).offset = (qPaged o).offset := by
  unfold postQuery; split <;> simp

theorem postQuery_order (o : PostQueryOptions) (now : String) :
    (postQuery o now).order = (qPaged o).order := by
  unfold postQuery; split <;> simp

/-! ### Row-satisfaction lemmas -/

theorem rowSat_whereP (q : Query) (p : Pred) (r : Row) :
    rowSat (q.whereP p) r = (rowSat q r && evalPred r p) := by
  simp [rowSat]

theorem rowSat_addIf (c : Prop) [Decidable c] (p : Pred) (q : Query) (r : Row) :
    rowSat (addIf c p q) r = (rowSat q r && (if c then evalPred r p else true)) := by
  unfold addIf
  split <;> simp [rowSat_whereP]

theorem rowSat_eq_of_whereList {q q' : Query} (h : q.whereList = q'.whereList)
    (r : Row) : rowSat q r = rowSat q' r := by
  simp [rowSat, h]

theorem rowSat_pull {q q' : Query} {r : Row} {S : Bool}
    (h : rowSat q r = (rowSat q' r && S)) (c : Prop) [Decidable c] (p : Pred) :
    rowSat (addIf c p q) r = (rowSat (addIf c p q') r && S) := by
  rw [rowSat_addIf, rowSat_addIf, h]
  cases S <;> simp

/-- The row-level meaning of a built `postQuery` statement: the conjunction
of the where-chain and, unless `WithDeleted`, the soft-delete visibility
predicate. -/
theorem rowSat_postQuery (o : PostQueryOptions) (now : String) (r : Row) :
    rowSat (postQuery o now) r
      = (rowSat (qBase o) r
         && (o.WithDeleted || evalPred r (softDeletedPred now))) := by
  have hq := rowSat_eq_of_whereList (qPaged_whereList o) r
  cases hwd : o.WithDeleted <;>
    simp [postQuery, hwd, rowSat_whereP, hq]

/-- The where-predicates of a built `postQuery` statement. -/
theorem postQuery_whereList (o : PostQueryOptions) (now : String) :
    (postQuery o now).whereList
      = (qBase o).whereList
        ++ (if o.WithDeleted then [] else [softDeletedPred now]) := by
  cases hwd : o.WithDeleted <;> simp [postQuery, hwd, qPaged_whereList]

/-! ### The Post entity (a `dataobject.DataObject`)

A flat string field map with dirty-field tracking: `Set` writes a field and
records it as dirty, `Get` reads (absent fields read as `""`),
`MarkAsNotDirty` clears the dirty map, `Hydrate` loads data without marking
anything dirty.  `Data()` returns the field map, `DataChanged()` the dirty
map. -/

/-- Write `k ↦ v` into a string field map (replacing the entry for `k` when
one exists, appending otherwise — a Go `m[k] = v`). -/
def setA : List (String × String) → String → String → List (String × String)
  | [], k, v => [(k, v)]
  | x :: xs, k, v => if x.fst == k then (k, v) :: xs else x :: setA xs k v

/-- Remove key `k` from a string field map (Go's `delete(m, k)`). -/
def eraseKey (l : List (String × String)) (k : String) : List (String × String) :=
  l.filter (fun kv => kv.fst ≠ k)

/-- Entity `Post` from `Post.go`: a `dataobject.DataObject`. -/
structure Post where
  data : List (String × String) := []
  dataChanged : List (String × String) := []
deriving Repr, DecidableEq

namespace Post

/-- Model of `o.Get(k)`: absent fields read as the Go zero value `""`. -/
def get (p : Post) (k : String) : String := rowGet p.data k

/-- Model of `o.Set(k, v)`: writes the field and marks it dirty. -/
def set (p : Post) (k v : String) : Post :=
  { data := setA p.data k v, dataChanged := setA p.dataChanged k v }

/-- Model of `o.ID()`. -/
def id (p : Post) : String := p.get COLUMN_ID

/-- Model of `o.MarkAsNotDirty()`. -/
def markAsNotDirty (p : Post) : Post := { p with dataChanged := [] }

/-- Model of `o.SetCreatedAt(v)`. -/
def setCreatedAt (p : Post) (v : String) : Post := p.set COLUMN_CREATED_AT v

/-- Model of `o.SetUpdatedAt(v)`. -/
def setUpdatedAt (p : Post) (v : String) : Post := p.set COLUMN_UPDATED_AT v

/-- Model of `o.SetSoftDeletedAt(v)`. -/
def setSoftDeletedAt (p : Post) (v : String) : Post := p.set COLUMN_SOFT_DELETED_AT v

end Post

/-- Function `NewPostFromExistingData`: hydrates a Post from a row without marking
fields dirty. -/
def NewPostFromExistingData (m : List (String × String)) : Post :=
  { data := m, dataChanged := [] }

/-! ### The versioning engine (file `src/unnamed/part_000`)

The backing snapshot store (`versionstore`, an external collaborator) is
modelled as an in-memory list of snapshot rows; `VersionCreate` stamps each
snapshot with the store clock, which increases strictly, so "most recent by
creation time" is well defined. -/

/-- One versioning snapshot row. -/
structure Snapshot where
  entityType : String
  entityID : String
  content : String
  createdAt : Nat
deriving Repr, DecidableEq

/-- The store state relevant to versioning: the configuration flags of the
`store` struct plus the backing snapshot table and its clock. -/
structure StoreSt where
  versioningEnabled : Bool := false
  hasVersioningStore : Bool := false
  snapshots : List Snapshot := []
  clock : Nat := 0
deriving Repr, DecidableEq

/-- The later of two snapshots by creation time (ties go to the second,
i.e. the one appearing later in the table). -/
def laterOf (a b : Snapshot) : Snapshot :=
  if a.createdAt ≤ b.createdAt then b else a

/-- Accumulate the most recent snapshot seen so far. -/
def pickLatest (acc : Option Snapshot) (s : Snapshot) : Option Snapshot :=
  match acc with
  | none => some s
  | some b => some (laterOf b s)

/-- The most recent snapshot for an (entity type, entity id) pair. -/
def latestSnapshot (l : List Snapshot) (etype eid : String) : Option Snapshot :=
  (l.filter (fun s => s.entityType == etype && s.entityID == eid)).foldl
    pickLatest none

/-- The external `VersionList` call made by `versioningCreateIfChanged`:
filter by entity type and id, order by creation time descending, limit 1. -/
def versioningListLatest (st : StoreSt) (etype eid : String) : List Snapshot :=
  match latestSnapshot st.snapshots etype eid with
  | some s => [s]
  | none => []

/-- Method `VersioningCreate` (src/unnamed/part_000): no-op success when no backing
store is configured, otherwise the external `VersionCreate` appends a new
snapshot stamped with the current instant. -/
def VersioningCreate (st : StoreSt) (etype eid content : String) :
    Except String Unit × StoreSt :=
  if !st.hasVersioningStore then (.ok (), st)
  else
    (.ok (), { st with
                snapshots := st.snapshots ++ [⟨etype, eid, content, st.clock⟩],
                clock := st.clock + 1 })

/-- Function `versioningCreateIfChanged` (src/unnamed/part_000). -/
def versioningCreateIfChanged (st : StoreSt) (entityType entityID content : String) :
    Except String Unit × StoreSt :=
  if !st.versioningEnabled then (.ok (), st)
  else if !st.hasVersioningStore then (.error "blogstore: versioning store is nil", st)
  else if entityType = "" then (.error "blogstore: entityType is empty", st)
  else if entityID = "" then (.error "blogstore: entityID is empty", st)
  else
    match versioningListLatest st entityType entityID with
    | last :: _ =>
      if last.content = content then (.ok (), st)
      else VersioningCreate st entityType entityID content
    | [] => VersioningCreate st entityType entityID content

/-- The columns excluded from versioning content
(`versioningContentFromEntity`, src/unnamed/part_000). -/
def isVersioningExcludedCol (k : String) : Bool :=
  k == COLUMN_CREATED_AT || k == COLUMN_UPDATED_AT || k == COLUMN_SOFT_DELETED_AT

/-- Insert a key/value pair into a key-sorted list. -/
def insertByKey (kv : String × String) :
    List (String × String) → List (String × String)
  | [] => [kv]
  | x :: xs => if kv.fst ≤ x.fst then kv :: x :: xs else x :: insertByKey kv xs

/-- Sort a field map by key: the canonical (stable) key ordering of
`json.Marshal` on a Go `map[string]string`. -/
def sortByKey (l : List (String × String)) : List (String × String) :=
  l.foldr insertByKey []

/-- Canonical JSON of a string field map: keys in sorted order. -/
def canonJson (m : List (String × String)) : String :=
  "\x7b" ++
    String.intercalate ","
      ((sortByKey m).map (fun kv => "\"" ++ kv.fst ++ "\":\"" ++ kv.snd ++ "\"")) ++
  "\x7d"

/-- Function `versioningContentFromEntity` (src/unnamed/part_000) applied to a `Post`.
The Go function first tries the entity's own `MarshalToVersioning`; `Post`'s
implementation of it is not under `src/`.  Modelled from the spec (§3, §4.3,
and `post_versioning_test.go`): canonical JSON of the entity's field map
minus the three timestamp columns — which is also exactly what the
function's generic `Data()`-based branch produces. -/
def versioningContentFromEntity (p : Post) : Except String String :=
  .ok (canonJson (p.data.filter (fun kv => !isVersioningExcludedCol kv.fst)))

/-- Function `versioningTrackEntity` (src/unnamed/part_000). -/
def versioningTrackEntity (st : StoreSt) (entityType entityID : String)
    (entity : Post) : Except String Unit × StoreSt :=
  if !st.versioningEnabled then (.ok (), st)
  else
    match versioningContentFromEntity entity with
    | .error e => (.error e, st)
    | .ok content => versioningCreateIfChanged st entityType entityID content

/-! ### The store operations (file `store_implementation.go`)

The database backend, the statement renderer (`ToSQL`) and the clock
(`carbon.Now`) are supplied as an explicit environment; each operation
additionally reports the trace of statements it executed. -/

/-- One executed statement. -/
inductive Effect where
  | execInsert
  | execUpdate
  | execSelect (q : Query)
deriving Repr, DecidableEq

/-- The environment of a store call: the current instant, the outcome of
rendering each kind of statement to SQL (`ToSQL`), and the database's
response to each kind of statement. -/
structure Env where
  nowStr : String
  renderInsert : Except String Unit
  renderUpdate : Except String Unit
  renderSelect : Query → Except String Unit
  execInsertErr : Option String
  execUpdateErr : Option String
  selectRows : Query → Except String (List Row)

/-- The result of `PostCreate`: the returned error, the post (mutated through
its pointer), the store state, and the executed statements. -/
structure CreateResult where
  res : Except String Unit
  post : Post
  st : StoreSt
  trace : List Effect

/-- Method `PostCreate` (store_implementation.go): stamps created-at and updated-at,
INSERTs the full field set, and on success clears dirty tracking and runs
versioning tracking. -/
def PostCreate (st : StoreSt) (env : Env) (post : Post) : CreateResult :=
  let post := post.setCreatedAt env.nowStr
  let post := post.setUpdatedAt env.nowStr
  match env.renderInsert with
  | .error e => ⟨.error e, post, st, []⟩
  | .ok _ =>
    match env.execInsertErr with
    | some e => ⟨.error e, post, st, [.execInsert]⟩
    | none =>
      let post := post.markAsNotDirty
      match versioningTrackEntity st VERSIONING_TYPE_POST post.id post with
      | (.error e2, st2) => ⟨.error e2, post, st2, [.execInsert]⟩
      | (.ok _, st2) => ⟨.ok (), post, st2, [.execInsert]⟩

/-- The result of `PostUpdate` and the soft-delete operations. -/
structure UpdateResult where
  res : Except String Unit
  post : Option Post
  st : StoreSt
  trace : List Effect

/-- Method `PostUpdate` (store_implementation.go): nil check, dirty-field delta with
`id`/`hash`/`data` excluded, no-op success on an empty delta, otherwise an
UPDATE of the changed columns; dirty tracking is cleared and versioning
tracking runs after the UPDATE execution, whose error is returned at the end
(a versioning-tracking error takes precedence). -/
def PostUpdate (st : StoreSt) (env : Env) (post? : Option Post) : UpdateResult :=
  match post? with
  | none => ⟨.error "order is nil", none, st, []⟩
  | some post =>
    let dataChanged := eraseKey (eraseKey (eraseKey post.dataChanged "id") "hash") "data"
    if dataChanged.length < 1 then ⟨.ok (), some post, st, []⟩
    else
      match env.renderUpdate with
      | .error e => ⟨.error e, some post, st, []⟩
      | .ok _ =>
        let execErr := env.execUpdateErr
        let post := post.markAsNotDirty
        match versioningTrackEntity st VERSIONING_TYPE_POST post.id post with
        | (.error e2, st2) => ⟨.error e2, some post, st2, [.execUpdate]⟩
        | (.ok _, st2) =>
          match execErr with
          | some e => ⟨.error e, some post, st2, [.execUpdate]⟩
          | none => ⟨.ok (), some post, st2, [.execUpdate]⟩

/-- The result of `PostList`. -/
structure ListResult where
  posts : List Post
  err : Option String
  trace : List Effect

/-- Method `PostList` (store_implementation.go): renders and executes the built
SELECT and hydrates each returned row; propagates the `ToSQL` error and any
execution error, returning an empty (never null) list alongside. -/
def PostList (env : Env) (options : PostQueryOptions) : ListResult :=
  let q := postQuery options env.nowStr
  match env.renderSelect q with
  | .error e => ⟨[], some e, []⟩
  | .ok _ =>
    match env.selectRows q with
    | .error e => ⟨[], some e, [.execSelect q]⟩
    | .ok rows => ⟨rows.map NewPostFromExistingData, none, [.execSelect q]⟩

/-- The result of `PostCount`. -/
structure CountResult where
  count : Int
  err : Option String
  trace : List Effect

/-- Method `PostCount` (store_implementation.go): forces `CountOnly`, wraps the
built query in `Limit(1).Select(COUNT(*))`, and parses the scalar result.
On a `ToSQL` error it returns `(-1, nil)`; on an empty row set `(-1, nil)`;
on an execution or parse error `(-1, err)`. -/
def PostCount (env : Env) (options : PostQueryOptions) : CountResult :=
  let q := postCountQuery options env.nowStr
  match env.renderSelect q with
  | .error _ => ⟨-1, none, []⟩
  | .ok _ =>
    match env.selectRows q with
    | .error e => ⟨-1, some e, [.execSelect q]⟩
    | .ok mapped =>
      match mapped with
      | [] => ⟨-1, none, [.execSelect q]⟩
      | m0 :: _ =>
        match (rowGet m0 "count").toInt? with
        | none => ⟨-1, some "strconv.ParseIntError", [.execSelect q]⟩
        | some i => ⟨i, none, [.execSelect q]⟩

/-- The result of `PostFindByID`. -/
structure FindResult where
  found : Except String (Option Post)
  trace : List Effect

/-- Method `PostFindByID` (store_implementation.go): blank-id precondition error,
otherwise `PostList` with an exact-id filter and limit 1; the first row if
any, `none` (with no error) otherwise. -/
def PostFindByID (env : Env) (idArg : String) : FindResult :=
  if idArg = "" then ⟨.error "post id is empty", []⟩
  else
    let lr := PostList env { ID := idArg, Limit := 1 }
    match lr.err with
    | some e => ⟨.error e, lr.trace⟩
    | none =>
      match lr.posts with
      | p :: _ => ⟨.ok (some p), lr.trace⟩
      | [] => ⟨.ok none, lr.trace⟩

/-- Method `PostSoftDelete` (store_implementation.go): nil check, stamp
soft-deleted-at with the current instant, persist through `PostUpdate`. -/
def PostSoftDelete (st : StoreSt) (env : Env) (post? : Option Post) : UpdateResult :=
  match post? with
  | none => ⟨.error "post is nil", none, st, []⟩
  | some post => PostUpdate st env (some (post.setSoftDeletedAt env.nowStr))

/-- Method `PostSoftDeleteByID` (store_implementation.go): look the post up by id
(default visibility), propagate a lookup error, then `PostSoftDelete` the
result — which is `none` when nothing matched. -/
def PostSoftDeleteByID (st : StoreSt) (env : Env) (idArg : String) : UpdateResult :=
  let fr := PostFindByID env idArg
  match fr.found with
  | .error e => ⟨.error e, none, st, fr.trace⟩
  | .ok post? =>
    let ur := PostSoftDelete st env post?
    ⟨ur.res, ur.post, ur.st, fr.trace ++ ur.trace⟩

/-! ### Further helper lemmas for the query-builder claims -/

theorem addIf_of_not {c : Prop} [Decidable c] (h : ¬ c) (p : Pred) (q : Query) :
    addIf c p q = q := if_neg h

theorem countP_ite (c : Prop) [Decidable c] (p : Pred → Bool) (a b : List Pred) :
    List.countP p (if c then a else b) = if c then a.countP p else b.countP p := by
  split <;> rfl

/-- The untouched `WithDeleted` field plays no role in the where-chain. -/
theorem qBase_withDeleted (o : PostQueryOptions) (b : Bool) :
    qBase { o with WithDeleted := b } = qBase o := rfl

/-- The untouched `WithDeleted` field plays no role in pagination. -/
theorem qPaged_withDeleted (o : PostQueryOptions) (b : Bool) :
    qPaged { o with WithDeleted := b } = qPaged o := rfl

/-- No predicate of the where-chain mentions the soft-deleted-at column. -/
theorem countSoft_qBase (o : PostQueryOptions) :
    (qBase o).whereList.countP (predUsesCol COLUMN_SOFT_DELETED_AT) = 0 := by
  simp [qBase, qPre, addIf_whereList, List.countP_append, countP_ite,
    List.countP_cons, predUsesCol, atomUsesCol, searchPred, COLUMN_ID,
    COLUMN_STATUS, COLUMN_TITLE, COLUMN_CONTENT, COLUMN_CREATED_AT,
    COLUMN_SOFT_DELETED_AT]

/-- The search predicate is the only compound predicate of the where-chain. -/
theorem countOr_qBase (o : PostQueryOptions) :
    (qBase o).whereList.countP Pred.isOr = if o.Search ≠ "" then 1 else 0 := by
  simp [qBase, qPre, addIf_whereList, List.countP_append, countP_ite,
    List.countP_cons, Pred.isOr, searchPred]

/-- Factoring the search predicate out of the where-chain. -/
theorem rowSat_qBase_search (o : PostQueryOptions) (r : Row) (hs : o.Search ≠ "") :
    rowSat (qBase o) r
      = (rowSat (qBase { o with Search := "" }) r
         && evalPred r (searchPred o.Search)) := by
  have h0 : rowSat (addIf (o.Search ≠ "") (searchPred o.Search) (qPre o)) r
      = (rowSat (qPre o) r && evalPred r (searchPred o.Search)) := by
    rw [rowSat_addIf, if_pos hs]
  have h1 := rowSat_pull h0 (o.CreatedAtGreaterThan ≠ "")
      (.atom (.gtP COLUMN_CREATED_AT o.CreatedAtGreaterThan))
  have h2 := rowSat_pull h1 (o.CreatedAtLessThan ≠ "")
      (.atom (.ltP COLUMN_CREATED_AT o.CreatedAtLessThan))
  have h3 := rowSat_pull h2 (o.StatusIn.length > 0)
      (.atom (.inP COLUMN_STATUS o.StatusIn))
  have hq : qBase { o with Search := "" }
      = addIf (o.StatusIn.length > 0) (.atom (.inP COLUMN_STATUS o.StatusIn))
          (addIf (o.CreatedAtLessThan ≠ "")
            (.atom (.ltP COLUMN_CREATED_AT o.CreatedAtLessThan))
            (addIf (o.CreatedAtGreaterThan ≠ "")
              (.atom (.gtP COLUMN_CREATED_AT o.CreatedAtGreaterThan))
              (qPre o))) := by
    unfold qBase
    rw [addIf_of_not (show ¬ (PostQueryOptions.Search { o with Search := "" } ≠ "") by simp)]
    rfl
  rw [hq]
  exact h3

/-- Witness helper: a past deletion timestamp compares below the probe
instant used in the witnesses. -/
theorem pastBelowNow :
    ("2020-01-01 00:00:00" : String) < "2025-01-01 00:00:00" := by
  rw [String.lt_iff_toList_lt]; decide

/-- Witness helper: the probe instant compares below the far-future
sentinel. -/
theorem nowBelowSentinel :
    ("2025-01-01 00:00:00" : String) < "9999-12-31 23:59:59" := by
  rw [String.lt_iff_toList_lt]; decide

/-! ### Claim theorems for the query builder -/

/-- C3.  Soft-delete visibility: with `WithDeleted` unset the built query is
exactly the `WithDeleted` query with one extra ANDed predicate requiring
soft-deleted-at strictly greater than the current instant — exactly one
predicate of the statement mentions that column — so a row deleted in the
past fails the predicate and a never-deleted row carrying the far-future
sentinel passes it; with `WithDeleted` set no such predicate is added. -/
theorem softDelete_visibility (o : PostQueryOptions) (now : String) (row : Row) :
    (postQuery o now
       = if o.WithDeleted then postQuery { o with WithDeleted := true } now
         else (postQuery { o with WithDeleted := true } now).whereP
                (softDeletedPred now))
    ∧ ((postQuery o now).whereList.countP (predUsesCol COLUMN_SOFT_DELETED_AT)
       = if o.WithDeleted then 0 else 1)
    ∧ (rowSat (postQuery o now) row
       = (rowSat (postQuery { o with WithDeleted := true } now) row
          && (o.WithDeleted || decide (now < rowGet row COLUMN_SOFT_DELETED_AT))))
    ∧ (rowGet row COLUMN_SOFT_DELETED_AT < now
       → evalPred row (softDeletedPred now) = false)
    ∧ (now < rowGet row COLUMN_SOFT_DELETED_AT
       → evalPred row (softDeletedPred now) = true) := by
  refine ⟨?_, ?_, ?_, ?_, ?_⟩
  · cases hwd : o.WithDeleted <;>
      simp [postQuery, hwd, qPaged_withDeleted]
  · rw [postQuery_whereList, List.countP_append, countSoft_qBase]
    cases hwd : o.WithDeleted <;>
      simp [hwd, List.countP_cons, predUsesCol, atomUsesCol, softDeletedPred,
        COLUMN_SOFT_DELETED_AT]
  · simp [rowSat_postQuery, softDeletedPred, evalPred, evalAtom,
      qBase_withDeleted]
  · intro h
    show decide (now < rowGet row COLUMN_SOFT_DELETED_AT) = false
    exact decide_eq_false (lt_asymm h)
  · intro h
    show decide (now < rowGet row COLUMN_SOFT_DELETED_AT) = true
    exact decide_eq_true h

/-- Witness for C3 at concrete inputs: a past deletion timestamp is
excluded, the far-future sentinel is included. -/
theorem softDelete_visibility_witness :
    (evalPred [(COLUMN_SOFT_DELETED_AT, "2020-01-01 00:00:00")]
        (softDeletedPred "2025-01-01 00:00:00") = false)
    ∧ (evalPred [(COLUMN_SOFT_DELETED_AT, "9999-12-31 23:59:59")]
        (softDeletedPred "2025-01-01 00:00:00") = true) :=
  ⟨(softDelete_visibility {} "2025-01-01 00:00:00"
      [(COLUMN_SOFT_DELETED_AT, "2020-01-01 00:00:00")]).2.2.2.1 pastBelowNow,
   (softDelete_visibility {} "2025-01-01 00:00:00"
      [(COLUMN_SOFT_DELETED_AT, "9999-12-31 23:59:59")]).2.2.2.2 nowBelowSentinel⟩

/-- C4.  Count-only suppression: with `CountOnly` set the built statement has
no LIMIT, no OFFSET and no ORDER BY clause, whatever the pagination options;
the statement `PostCount` builds carries only its own `LIMIT 1` wrapping and
the `COUNT(*)` projection; with `CountOnly` unset, LIMIT and OFFSET clauses
are emitted iff the respective value is strictly positive. -/
theorem countOnly_suppression (o : PostQueryOptions) (now : String) :
    ((postQuery { o with CountOnly := true } now).limit = none
      ∧ (postQuery { o with CountOnly := true } now).offset = none
      ∧ (postQuery { o with CountOnly := true } now).order = none)
    ∧ ((postCountQuery o now).limit = some 1
      ∧ (postCountQuery o now).offset = none
      ∧ (postCountQuery o now).order = none
      ∧ (postCountQuery o now).countProjection = true)
    ∧ ((postQuery { o with CountOnly := false } now).limit
        = if o.Limit > 0 then some o.Limit.toNat else none)
    ∧ ((postQuery { o with CountOnly := false } now).offset
        = if o.Offset > 0 then some o.Offset.toNat else none) := by
  refine ⟨⟨?_, ?_, ?_⟩, ⟨?_, ?_, ?_, ?_⟩, ?_, ?_⟩ <;>
    simp [postCountQuery, postQuery_limit, postQuery_offset, postQuery_order,
      qPaged_limit, qPaged_offset, qPaged_order_of_countOnly]

/-- C7.  Search expansion: with a non-empty search term the built query
contains the compound predicate ORing case-insensitive title-contains,
case-insensitive content-contains and exact id-equality; it is the only
compound predicate of the statement, and it is ANDed with every other
predicate of the query. -/
theorem search_expansion (o : PostQueryOptions) (now : String) (row : Row)
    (hs : o.Search ≠ "") :
    (searchPred o.Search ∈ (postQuery o now).whereList)
    ∧ ((postQuery o now).whereList.countP Pred.isOr = 1)
    ∧ (rowSat (postQuery o now) row
       = (rowSat (postQuery { o with Search := "" } now) row
          && evalPred row (searchPred o.Search)))
    ∧ (evalPred row (searchPred o.Search)
       = (sqlIlike (rowGet row COLUMN_TITLE) ("%" ++ o.Search ++ "%")
          || sqlIlike (rowGet row COLUMN_CONTENT) ("%" ++ o.Search ++ "%")
          || (rowGet row COLUMN_ID == o.Search))) := by
  refine ⟨?_, ?_, ?_, ?_⟩
  · simp [postQuery_whereList, qBase, qPre, addIf_whereList, hs]
  · cases hwd : o.WithDeleted <;>
      simp [postQuery_whereList, hwd, List.countP_append, countOr_qBase, hs,
        List.countP_cons, Pred.isOr, softDeletedPred]
  · rw [rowSat_postQuery, rowSat_postQuery, rowSat_qBase_search o row hs]
    cases evalPred row (searchPred o.Search) <;> simp
  · simp [evalPred, searchPred, evalAtom, Bool.or_assoc]

/-- Witness for C7 at a concrete non-empty search term. -/
theorem search_expansion_witness :
    searchPred "abc" ∈ (postQuery { Search := "abc" } "2025-01-01 00:00:00").whereList :=
  (search_expansion { Search := "abc" } "2025-01-01 00:00:00" [] (by decide)).1

/-! ### Entity-map lemmas -/

theorem rowGet_setA (l : List (String × String)) (k v : String) :
    rowGet (setA l k v) k = v := by
  induction l with
  | nil => simp [setA, rowGet, List.find?]
  | cons x xs ih =>
    by_cases hx : (x.fst == k) = true
    · simp [setA, hx, rowGet, List.find?]
    · simp only [setA, hx, if_false, Bool.false_eq_true]
      simpa [rowGet, List.find?, hx] using ih

theorem rowGet_setA_other (l : List (String × String)) (k k' v : String)
    (h : (k == k') = false) : rowGet (setA l k v) k' = rowGet l k' := by
  induction l with
  | nil => simp [setA, rowGet, List.find?, h]
  | cons x xs ih =>
    by_cases hx : (x.fst == k) = true
    · have hxk : x.fst = k := by simpa using hx
      simp [setA, hx, rowGet, List.find?, h, hxk]
    · simp only [setA, hx, if_false, Bool.false_eq_true]
      by_cases hx' : (x.fst == k') = true
      · simp [rowGet, List.find?, hx']
      · simpa [rowGet, List.find?, hx'] using ih

theorem setA_ne_nil (l : List (String × String)) (k v : String) :
    setA l k v ≠ [] := by
  cases l with
  | nil => simp [setA]
  | cons x xs => unfold setA; split <;> simp

/-- C9-supporting: a fresh write is read back. -/
theorem Post.get_set_same (p : Post) (k v : String) : (p.set k v).get k = v :=
  rowGet_setA p.data k v

/-- C9-supporting: a write does not touch other fields. -/
theorem Post.get_set_other (p : Post) (k k' v : String) (h : (k == k') = false) :
    (p.set k v).get k' = p.get k' :=
  rowGet_setA_other p.data k k' v h

/-! ### Claim theorems for the store operations -/

/-- C6.  Zero-change update: when the dirty-field delta, with the `id`,
`hash` and `data` keys excluded, is empty, `PostUpdate` returns success
having executed no statement, changed no state, and created no snapshot. -/
theorem update_noop (st : StoreSt) (env : Env) (post : Post)
    (h : eraseKey (eraseKey (eraseKey post.dataChanged "id") "hash") "data" = []) :
    PostUpdate st env (some post) = ⟨.ok (), some post, st, []⟩ := by
  simp [PostUpdate, h]

/-- A benign witness environment: rendering succeeds, execution succeeds,
the database returns no rows. -/
def envOk : Env :=
  { nowStr := "2025-01-01 00:00:00"
    renderInsert := .ok ()
    renderUpdate := .ok ()
    renderSelect := fun _ => .ok ()
    execInsertErr := none
    execUpdateErr := none
    selectRows := fun _ => .ok [] }

/-- Witness for C6: an update of a clean post is a pure no-op. -/
theorem update_noop_witness :
    PostUpdate { versioningEnabled := true, hasVersioningStore := true } envOk
        (some { data := [("id", "p1"), ("title", "A")], dataChanged := [] })
      = ⟨.ok (), some { data := [("id", "p1"), ("title", "A")], dataChanged := [] },
         { versioningEnabled := true, hasVersioningStore := true }, []⟩ :=
  update_noop { versioningEnabled := true, hasVersioningStore := true } envOk
    { data := [("id", "p1"), ("title", "A")], dataChanged := [] } rfl

/-- Method `MarkAsNotDirty` does not change field values. -/
theorem Post.get_markAsNotDirty (p : Post) (k : String) :
    p.markAsNotDirty.get k = p.get k := rfl

/-- Whatever the environment does, the post `PostUpdate` hands back is the
input post, at most with its dirty tracking cleared. -/
theorem PostUpdate_post (st : StoreSt) (env : Env) (post : Post) :
    (PostUpdate st env (some post)).post = some post
    ∨ (PostUpdate st env (some post)).post = some post.markAsNotDirty := by
  by_cases hd : (eraseKey (eraseKey (eraseKey post.dataChanged "id") "hash") "data").length < 1
  · left; simp [PostUpdate, hd]
  · rcases hvv : versioningTrackEntity st VERSIONING_TYPE_POST
        (Post.markAsNotDirty post).id (Post.markAsNotDirty post) with ⟨r2, st2⟩
    cases hr : env.renderUpdate <;> cases r2 <;> cases he : env.execUpdateErr <;>
      simp [PostUpdate, hd, hr, he, hvv]

/-- Whatever the environment does, the post `PostCreate` hands back is the
input post with the two timestamps stamped, at most with its dirty tracking
cleared. -/
theorem PostCreate_post (st : StoreSt) (env : Env) (post : Post) :
    (PostCreate st env post).post
      = (post.setCreatedAt env.nowStr).setUpdatedAt env.nowStr
    ∨ (PostCreate st env post).post
      = ((post.setCreatedAt env.nowStr).setUpdatedAt env.nowStr).markAsNotDirty := by
  rcases hvv : versioningTrackEntity st VERSIONING_TYPE_POST
      (((post.setCreatedAt env.nowStr).setUpdatedAt env.nowStr).markAsNotDirty).id
      (((post.setCreatedAt env.nowStr).setUpdatedAt env.nowStr).markAsNotDirty)
    with ⟨r2, st2⟩
  cases hr : env.renderInsert <;> cases he : env.execInsertErr <;> cases r2 <;>
    simp [PostCreate, hr, he, hvv]

/-- C9.  `PostUpdate` never writes any field of the post — in particular the
updated-at field after the call equals its value before — whereas
`PostCreate` stamps both created-at and updated-at to the current instant. -/
theorem update_does_not_restamp (st : StoreSt) (env : Env) (post : Post) :
    ((PostUpdate st env (some post)).post.map Post.data = some post.data)
    ∧ ((PostUpdate st env (some post)).post.map (fun p => p.get COLUMN_UPDATED_AT)
        = some (post.get COLUMN_UPDATED_AT))
    ∧ ((PostCreate st env post).post.get COLUMN_CREATED_AT = env.nowStr)
    ∧ ((PostCreate st env post).post.get COLUMN_UPDATED_AT = env.nowStr) := by
  have hcu : ((post.setCreatedAt env.nowStr).setUpdatedAt env.nowStr).get
      COLUMN_UPDATED_AT = env.nowStr := Post.get_set_same _ _ _
  have hcc : ((post.setCreatedAt env.nowStr).setUpdatedAt env.nowStr).get
      COLUMN_CREATED_AT = env.nowStr := by
    show ((post.setCreatedAt env.nowStr).set COLUMN_UPDATED_AT env.nowStr).get
        COLUMN_CREATED_AT = env.nowStr
    rw [Post.get_set_other _ _ _ _ (by rfl)]
    exact Post.get_set_same _ _ _
  refine ⟨?_, ?_, ?_, ?_⟩
  · rcases PostUpdate_post st env post with h | h <;> rw [h] <;> rfl
  · rcases PostUpdate_post st env post with h | h <;> rw [h] <;> rfl
  · rcases PostCreate_post st env post with h | h <;> rw [h]
    · exact hcc
    · rw [Post.get_markAsNotDirty]; exact hcc
  · rcases PostCreate_post st env post with h | h <;> rw [h]
    · exact hcu
    · rw [Post.get_markAsNotDirty]; exact hcu

/-- C8.  `PostFindByID`: a blank identifier yields the precondition error
with no statement executed; a non-blank identifier delegates to `PostList`
with an exact-id filter and limit 1 — the lookup error if any, else the
first row if any, else `none` with no error (not-found is not an error). -/
theorem findByID_contract (env : Env) (idArg : String) (hid : idArg ≠ "") :
    (PostFindByID env "" = ⟨.error "post id is empty", []⟩)
    ∧ (PostFindByID env idArg
        = ⟨match (PostList env { ID := idArg, Limit := 1 }).err with
           | some e => .error e
           | none => .ok (PostList env { ID := idArg, Limit := 1 }).posts.head?,
           (PostList env { ID := idArg, Limit := 1 }).trace⟩)
    ∧ ((PostList env { ID := idArg, Limit := 1 }).err = none
       → (PostList env { ID := idArg, Limit := 1 }).posts = []
       → (PostFindByID env idArg).found = .ok none) := by
  refine ⟨by simp [PostFindByID], ?_, ?_⟩
  · cases herr : (PostList env { ID := idArg, Limit := 1 }).err with
    | some e => simp [PostFindByID, hid, herr]
    | none =>
      cases hp : (PostList env { ID := idArg, Limit := 1 }).posts <;>
        simp [PostFindByID, hid, herr, hp]
  · intro herr hp
    simp [PostFindByID, hid, herr, hp]

/-- Witness for C8: against an empty table the lookup of a non-blank id
returns `none` with no error. -/
theorem findByID_contract_witness :
    (PostFindByID envOk "p1").found = Except.ok none :=
  (findByID_contract envOk "p1" (by decide)).2.2 rfl rfl

/-- C10.  `PostSoftDeleteByID` never succeeds silently on an invisible
target: a blank id propagates the lookup's empty-identifier error, and an id
whose default-visibility lookup yields `none` makes the subsequent
`PostSoftDelete` fail with the "post is nil" error, leaving the store state
unchanged. -/
theorem softDeleteByID_invisible_target (st : StoreSt) (env : Env)
    (idArg : String)
    (hmiss : (PostFindByID env idArg).found = .ok none) :
    (PostSoftDeleteByID st env "" = ⟨.error "post id is empty", none, st, []⟩)
    ∧ ((PostSoftDeleteByID st env idArg).res = .error "post is nil"
       ∧ (PostSoftDeleteByID st env idArg).post = none
       ∧ (PostSoftDeleteByID st env idArg).st = st) := by
  refine ⟨by simp [PostSoftDeleteByID, PostFindByID, PostSoftDelete], ?_⟩
  refine ⟨?_, ?_, ?_⟩ <;> simp [PostSoftDeleteByID, hmiss, PostSoftDelete]

/-- Witness for C10: soft-deleting a missing id reports "post is nil". -/
theorem softDeleteByID_invisible_target_witness :
    (PostSoftDeleteByID {} envOk "p1").res = Except.error "post is nil" :=
  (softDeleteByID_invisible_target {} envOk "p1" rfl).2.1

/-! ### C5: statement-rendering failures -/

/-- An environment whose SELECT renderer fails (unsupported dialect). -/
def envRenderFail : Env :=
  { envOk with renderSelect := fun _ => .error "goqu: dialect not supported" }

/-- C5 counterexample: when `ToSQL` fails for the count statement,
`PostCount` returns the sentinel `-1` with a `nil` error — the rendering
error is not propagated, contradicting the claim for `PostCount`. -/
theorem postCount_swallows_render_error :
    envRenderFail.renderSelect (postCountQuery {} envRenderFail.nowStr)
      = .error "goqu: dialect not supported"
    ∧ PostCount envRenderFail {} = ⟨-1, none, []⟩ :=
  ⟨rfl, rfl⟩

/-- C5 amended: `PostList`, `PostCreate` and `PostUpdate` propagate a
statement-rendering (`ToSQL`) error to the caller with nothing executed;
`PostCount` instead swallows the rendering error, returning the sentinel
count `-1` with a `nil` error (also with nothing executed). -/
theorem render_error_propagation (st : StoreSt) (env : Env)
    (o : PostQueryOptions) (post : Post) (e : String) :
    (env.renderSelect (postQuery o env.nowStr) = .error e
       → PostList env o = ⟨[], some e, []⟩)
    ∧ (env.renderInsert = .error e
       → (PostCreate st env post).res = .error e
         ∧ (PostCreate st env post).st = st
         ∧ (PostCreate st env post).trace = [])
    ∧ (env.renderUpdate = .error e
       → ¬ (eraseKey (eraseKey (eraseKey post.dataChanged "id") "hash") "data").length < 1
       → PostUpdate st env (some post) = ⟨.error e, some post, st, []⟩)
    ∧ (env.renderSelect (postCountQuery o env.nowStr) = .error e
       → PostCount env o = ⟨-1, none, []⟩) := by
  refine ⟨?_, ?_, ?_, ?_⟩
  · intro h; simp [PostList, h]
  · intro h; refine ⟨?_, ?_, ?_⟩ <;> simp [PostCreate, h]
  · intro h hd; simp [PostUpdate, hd, h]
  · intro h; simp [PostCount, h]

/-- Witness for the amended C5 at a concrete failing renderer. -/
theorem render_error_propagation_witness :
    PostList envRenderFail {} = ⟨[], some "goqu: dialect not supported", []⟩ :=
  (render_error_propagation {} envRenderFail {} {} "goqu: dialect not supported").1 rfl

/-! ### C1: effects of a failed INSERT / UPDATE execution -/

/-- A store state with versioning enabled and a backing snapshot store. -/
def stV : StoreSt := { versioningEnabled := true, hasVersioningStore := true }

/-- An environment whose UPDATE execution fails. -/
def envUpdFail : Env := { envOk with execUpdateErr := some "exec failed" }

/-- An environment whose INSERT execution fails. -/
def envInsFail : Env := { envOk with execInsertErr := some "insert failed" }

/-- A dirty post used by the C1 counterexample. -/
def postX : Post :=
  { data := [("id", "p1"), ("title", "A")], dataChanged := [("title", "A")] }

/-- C1 counterexample: with versioning enabled, a failing UPDATE execution
still clears the dirty-field set and still creates a versioning snapshot,
while the error is reported — so `PostUpdate` does not have the claimed
atomicity. -/
theorem update_failure_not_atomic_counterexample :
    (PostUpdate stV envUpdFail (some postX)).res = .error "exec failed"
    ∧ (PostUpdate stV envUpdFail (some postX)).post.map Post.dataChanged = some []
    ∧ (PostUpdate stV envUpdFail (some postX)).st.snapshots.length = 1
    ∧ stV.snapshots.length = 0 :=
  ⟨rfl, rfl, rfl, rfl⟩

/-- C1 amended: a failed INSERT makes `PostCreate` return the error with no
dirty-clear and no versioning side effect; a failed UPDATE execution makes
`PostUpdate` report a failure, but only after it has cleared the dirty set
and run versioning tracking (whose own error would take precedence). -/
theorem persistence_failure_effects (st : StoreSt) (env : Env) (post : Post)
    (e : String) :
    (env.renderInsert = .ok () → env.execInsertErr = some e
       → (PostCreate st env post).res = .error e
         ∧ (PostCreate st env post).st = st
         ∧ (PostCreate st env post).post.dataChanged
             = ((post.setCreatedAt env.nowStr).setUpdatedAt env.nowStr).dataChanged
         ∧ (PostCreate st env post).post.dataChanged ≠ [])
    ∧ (env.renderUpdate = .ok () → env.execUpdateErr = some e
       → ¬ (eraseKey (eraseKey (eraseKey post.dataChanged "id") "hash") "data").length < 1
       → (PostUpdate st env (some post)).post = some post.markAsNotDirty
         ∧ (PostUpdate st env (some post)).st
             = (versioningTrackEntity st VERSIONING_TYPE_POST
                 (Post.markAsNotDirty post).id (Post.markAsNotDirty post)).2
         ∧ (PostUpdate st env (some post)).res
             = (match (versioningTrackEntity st VERSIONING_TYPE_POST
                   (Post.markAsNotDirty post).id (Post.markAsNotDirty post)).1 with
                | .error e2 => Except.error e2
                | .ok _ => Except.error e)) := by
  constructor
  · intro hr he
    refine ⟨?_, ?_, ?_, ?_⟩
    · simp [PostCreate, hr, he]
    · simp [PostCreate, hr, he]
    · simp [PostCreate, hr, he]
    · simp only [PostCreate, hr, he]
      exact fun h => setA_ne_nil _ _ _ h
  · intro hr he hd
    rcases hvv : versioningTrackEntity st VERSIONING_TYPE_POST
        (Post.markAsNotDirty post).id (Post.markAsNotDirty post) with ⟨r2, st2⟩
    cases r2 <;>
      refine ⟨?_, ?_, ?_⟩ <;> simp [PostUpdate, hd, hr, he, hvv]

/-- Witness for the amended C1: a concrete failed INSERT leaves the store
state untouched and reports the error. -/
theorem persistence_failure_effects_witness :
    (PostCreate stV envInsFail { data := [("id", "p1")], dataChanged := [] }).res
        = .error "insert failed"
    ∧ (PostCreate stV envInsFail { data := [("id", "p1")], dataChanged := [] }).st
        = stV :=
  ⟨((persistence_failure_effects stV envInsFail
      { data := [("id", "p1")], dataChanged := [] } "insert failed").1 rfl rfl).1,
   ((persistence_failure_effects stV envInsFail
      { data := [("id", "p1")], dataChanged := [] } "insert failed").1 rfl rfl).2.1⟩

/-! ### C2: versioning change-detection idempotence -/

/-- A snapshot appended with a stamp later than everything already present
is the most recent one the fold selects, whatever has been accumulated. -/
theorem foldl_pickLatest_append (l : List Snapshot) (x : Snapshot)
    (acc : Option Snapshot)
    (hl : ∀ s ∈ l, s.createdAt < x.createdAt)
    (hacc : ∀ b, acc = some b → b.createdAt < x.createdAt) :
    (l ++ [x]).foldl pickLatest acc = some x := by
  induction l generalizing acc with
  | nil =>
    cases acc with
    | none => rfl
    | some b =>
      have hb := hacc b rfl
      simp [pickLatest, laterOf, le_of_lt hb]
  | cons y ys ih =>
    have hy : y.createdAt < x.createdAt := hl y (by simp)
    show (ys ++ [x]).foldl pickLatest (pickLatest acc y) = some x
    refine ih (pickLatest acc y) (fun s hs => hl s (List.mem_cons_of_mem y hs)) ?_
    intro b hb
    cases acc with
    | none =>
      simp only [pickLatest] at hb
      cases hb
      exact hy
    | some c =>
      have hc := hacc c rfl
      simp only [pickLatest] at hb
      cases hb
      unfold laterOf
      split <;> [exact hy; exact hc]

/-- After appending a snapshot stamped later than everything already present,
that snapshot is the most recent one for its (type, id) pair. -/
theorem latest_append_new (l : List Snapshot) (etype eid c : String) (t : Nat)
    (h : ∀ s ∈ l, s.createdAt < t) :
    latestSnapshot (l ++ [⟨etype, eid, c, t⟩]) etype eid
      = some ⟨etype, eid, c, t⟩ := by
  unfold latestSnapshot
  rw [List.filter_append]
  have hx : List.filter (fun s => s.entityType == etype && s.entityID == eid)
      [(⟨etype, eid, c, t⟩ : Snapshot)] = [⟨etype, eid, c, t⟩] := by simp
  rw [hx]
  apply foldl_pickLatest_append
  · intro s hs
    exact h s (List.mem_of_mem_filter hs)
  · intro b hb
    cases hb

/-- A tracking call whose content equals the most recent snapshot's content
is a no-op returning success. -/
theorem cic_noop (st : StoreSt) (etype eid content : String)
    (hEn : st.versioningEnabled = true) (hStore : st.hasVersioningStore = true)
    (hT : etype ≠ "") (hI : eid ≠ "") (last : Snapshot)
    (hl : latestSnapshot st.snapshots etype eid = some last)
    (hc : last.content = content) :
    versioningCreateIfChanged st etype eid content = (.ok (), st) := by
  simp [versioningCreateIfChanged, hEn, hStore, hT, hI, versioningListLatest,
    hl, hc]

/-- A tracking call whose content differs from the most recent snapshot's
content (or that finds no snapshot) appends exactly one new snapshot. -/
theorem cic_creates (st : StoreSt) (etype eid content : String)
    (hEn : st.versioningEnabled = true) (hStore : st.hasVersioningStore = true)
    (hT : etype ≠ "") (hI : eid ≠ "")
    (h : ∀ last, latestSnapshot st.snapshots etype eid = some last
         → last.content ≠ content) :
    versioningCreateIfChanged st etype eid content
      = (.ok (), { st with
          snapshots := st.snapshots ++ [⟨etype, eid, content, st.clock⟩],
          clock := st.clock + 1 }) := by
  cases hl : latestSnapshot st.snapshots etype eid with
  | none =>
    simp [versioningCreateIfChanged, hEn, hStore, hT, hI, versioningListLatest,
      hl, VersioningCreate]
  | some last =>
    simp [versioningCreateIfChanged, hEn, hStore, hT, hI, versioningListLatest,
      hl, h last hl, VersioningCreate]

/-- The state a tracking call leaves behind: unchanged, or with exactly one
snapshot appended and the clock advanced. -/
theorem cic_st_cases (st : StoreSt) (etype eid content : String) :
    (versioningCreateIfChanged st etype eid content).2 = st
    ∨ (versioningCreateIfChanged st etype eid content).2
        = { st with
            snapshots := st.snapshots ++ [⟨etype, eid, content, st.clock⟩],
            clock := st.clock + 1 } := by
  unfold versioningCreateIfChanged VersioningCreate versioningListLatest
  cases hl : latestSnapshot st.snapshots etype eid with
  | none => split_ifs <;> simp
  | some last =>
    by_cases hc : last.content = content <;> split_ifs <;> simp [hc]

/-- After a tracking call (with its preconditions met) the most recent
snapshot for the pair carries exactly the tracked content. -/
theorem latest_cic_content (st : StoreSt) (etype eid content : String)
    (hWF : ∀ s ∈ st.snapshots, s.createdAt < st.clock)
    (hEn : st.versioningEnabled = true) (hStore : st.hasVersioningStore = true)
    (hT : etype ≠ "") (hI : eid ≠ "") :
    ∃ last, latestSnapshot
        (versioningCreateIfChanged st etype eid content).2.snapshots etype eid
        = some last ∧ last.content = content := by
  cases hl : latestSnapshot st.snapshots etype eid with
  | none =>
    rw [cic_creates st etype eid content hEn hStore hT hI
      (fun last h => by rw [hl] at h; cases h)]
    exact ⟨_, latest_append_new st.snapshots etype eid content st.clock hWF, rfl⟩
  | some last =>
    by_cases hc : last.content = content
    · rw [cic_noop st etype eid content hEn hStore hT hI last hl hc]
      exact ⟨last, hl, hc⟩
    · rw [cic_creates st etype eid content hEn hStore hT hI
        (fun l' h => by rw [hl] at h; cases h; exact hc)]
      exact ⟨_, latest_append_new st.snapshots etype eid content st.clock hWF, rfl⟩

/-- C2.  Versioning change-detection idempotence: with versioning enabled,
a backing store configured and a non-blank (entity type, entity id) pair, a
tracking call whose content is byte-equal to the most recent snapshot's
content creates no snapshot and returns no error; otherwise it creates
exactly one new snapshot with that content; consequently a second
consecutive tracking call with the same content is a pure no-op, and
`versioningTrackEntity` is exactly such a tracking call on the entity's
serialized content. -/
theorem versioning_idempotence (st : StoreSt) (etype eid content : String)
    (hWF : ∀ s ∈ st.snapshots, s.createdAt < st.clock)
    (hEn : st.versioningEnabled = true) (hStore : st.hasVersioningStore = true)
    (hT : etype ≠ "") (hI : eid ≠ "") :
    (∀ last, latestSnapshot st.snapshots etype eid = some last
       → last.content = content
       → versioningCreateIfChanged st etype eid content = (.ok (), st))
    ∧ ((∀ last, latestSnapshot st.snapshots etype eid = some last
          → last.content ≠ content)
       → versioningCreateIfChanged st etype eid content
           = (.ok (), { st with
               snapshots := st.snapshots ++ [⟨etype, eid, content, st.clock⟩],
               clock := st.clock + 1 }))
    ∧ (versioningCreateIfChanged
          (versioningCreateIfChanged st etype eid content).2 etype eid content
        = (.ok (), (versioningCreateIfChanged st etype eid content).2))
    ∧ ((versioningCreateIfChanged st etype eid content).2.snapshots.length
        ≤ st.snapshots.length + 1)
    ∧ (∀ entity : Post,
        versioningTrackEntity st etype eid entity
          = versioningCreateIfChanged st etype eid
              (canonJson (entity.data.filter
                (fun kv => !isVersioningExcludedCol kv.fst)))) := by
  refine ⟨fun last hl hc => cic_noop st etype eid content hEn hStore hT hI last hl hc,
    fun h => cic_creates st etype eid content hEn hStore hT hI h, ?_, ?_, ?_⟩
  · obtain ⟨last, hl, hc⟩ :=
      latest_cic_content st etype eid content hWF hEn hStore hT hI
    rcases cic_st_cases st etype eid content with h2 | h2 <;>
      exact cic_noop _ etype eid content (by rw [h2]; exact hEn)
        (by rw [h2]; exact hStore) hT hI last hl hc
  · rcases cic_st_cases st etype eid content with h2 | h2 <;> simp [h2]
  · intro entity
    simp [versioningTrackEntity, hEn, versioningContentFromEntity]

/-- Witness for C2: a first tracking call on an empty snapshot table creates
a snapshot, and an immediately repeated call with the same content is a pure
no-op. -/
theorem versioning_idempotence_witness :
    versioningCreateIfChanged
        (versioningCreateIfChanged stV "post" "p1" "content-1").2 "post" "p1" "content-1"
      = (.ok (), (versioningCreateIfChanged stV "post" "p1" "content-1").2) :=
  (versioning_idempotence stV "post" "p1" "content-1"
    (by intro s hs; cases hs) rfl rfl (by decide) (by decide)).2.2.1

end Blogstore
